import Mathlib

set_option autoImplicit false

namespace IOReplay

/-!
Shallow embedding of the trace-to-syscall reconstruction engine of
`onedata/ioreplay` (`src/ioreplay/parser.py` and the syscall record shapes of
`src/ioreplay/operations.py`).

In the Python source, `File.size` is either an `int` (regular files) or a
two-element list `[known_children, unknown_children]` (directories).  The
list is mutated through aliased references held by the environment maps
(`rename` even installs the very same list object under a second UUID).  The
embedding makes that sharing explicit: directory size pairs live in a store
of cells (`ParserState.cells`) and a directory `File` holds the index of its
cell.  A fresh Python list corresponds to allocating a fresh cell.

Handlers are modelled as `ParserState → IOEntry → ParserState × Bool`: the
returned state includes every mutation performed before a Python exception
was raised (there is no rollback in the source), and the `Bool` tells whether
the handler ran to completion (`False` models an exception caught by the
per-record `try` in `IOTraceParser.parse`).
-/

/-- Size field of a `File`: byte length for regular files (`fsz`), or a
reference into the directory-size cell store for directories (`dref`). -/
inductive FSize where
  | fsz (n : Int)
  | dref (r : Nat)
deriving DecidableEq

/-- `File = namedtuple('File', ['path', 'type', 'size'])`. -/
structure File where
  path : String
  type : String
  size : FSize
deriving DecidableEq

/-- The reconstructed user syscall records of `operations.py`, tagged with
the `timestamp`/`duration` fields shared by all of them. -/
inductive Syscall where
  | GetAttr (timestamp duration : Int) (path : String)
  | SetAttr (timestamp duration : Int) (path : String)
      (set_mask mode size atime mtime : Int)
  | ReadDir (timestamp duration : Int) (path : String) (offset entries_num : Int)
  | Open (timestamp duration : Int) (path : String) (flags handle_id : Int)
  | Create (timestamp duration : Int) (path : String) (flags mode handle_id : Int)
  | MkDir (timestamp duration : Int) (path : String) (mode : Int)
  | MkNod (timestamp duration : Int) (path : String) (mode : Int)
  | Unlink (timestamp duration : Int) (path : String)
  | RmDir (timestamp duration : Int) (path : String)
  | Rename (timestamp duration : Int) (src_path dst_path : String)
  | GetXAttr (timestamp duration : Int) (path attr : String)
  | SetXAttr (timestamp duration : Int) (path attr val : String) (flags : Int)
  | RemoveXAttr (timestamp duration : Int) (path attr : String)
  | ListXAttr (timestamp duration : Int) (path : String)
  | Read (timestamp duration : Int) (handle_id size offset : Int)
  | Write (timestamp duration : Int) (handle_id size offset : Int)
  | Fsync (timestamp duration : Int) (handle_id : Int) (data_only : Bool)
  | Release (timestamp duration : Int) (handle_id : Int)
deriving DecidableEq

/-- The `timestamp` field of a syscall record (used by the final sort and by
`parse` to set `start_timestamp`). -/
def Syscall.timestamp : Syscall → Int
  | .GetAttr t _ _ => t
  | .SetAttr t _ _ _ _ _ _ _ => t
  | .ReadDir t _ _ _ _ => t
  | .Open t _ _ _ _ => t
  | .Create t _ _ _ _ _ => t
  | .MkDir t _ _ _ => t
  | .MkNod t _ _ _ => t
  | .Unlink t _ _ => t
  | .RmDir t _ _ => t
  | .Rename t _ _ _ => t
  | .GetXAttr t _ _ _ => t
  | .SetXAttr t _ _ _ _ _ => t
  | .RemoveXAttr t _ _ _ => t
  | .ListXAttr t _ _ => t
  | .Read t _ _ _ _ => t
  | .Write t _ _ _ _ => t
  | .Fsync t _ _ _ => t
  | .Release t _ _ => t

/-- `CTX_SWITCH_DELAY = 250` of `parser.py`.  The source comment says the
delay is meant in µs, but the value is compared against differences of
timestamps that were already multiplied by 1000 at ingest. -/
def CTX_SWITCH_DELAY : Int := 250

/-- `os.XATTR_CREATE` (Linux). -/
def XATTR_CREATE : Int := 1

/-- `os.XATTR_REPLACE` (Linux). -/
def XATTR_REPLACE : Int := 2

/-- `IO_ENTRY_FIELDS_NUM = len(IO_ENTRY_FIELDS) = 13`. -/
def IO_ENTRY_FIELDS_NUM : Nat := 13

/-- One parsed trace line (`IOEntry` namedtuple): timestamps and durations
already converted to ns, the seven positional argument strings kept raw. -/
structure IOEntry where
  timestamp : Int
  op : String
  duration : Int
  uuid : String
  handle_id : Int
  retries : Int
  arg0 : String
  arg1 : String
  arg2 : String
  arg3 : String
  arg4 : String
  arg5 : String
  arg6 : String
deriving DecidableEq

/-- Decimal digit run → value; `none` on an empty run or a non-digit
(structural recursion, so concrete inputs evaluate inside proofs). -/
def parseDigits : List Char → Option Nat
  | [] => none
  | cs =>
    if cs.all Char.isDigit then
      some (cs.foldl (fun n c => n * 10 + (c.toNat - 48)) 0)
    else none

/-- Python's `int(s)` in base 10 on a trimmed field: an optional sign
followed by at least one digit; anything else raises `ValueError`. -/
def toIntPy (s : String) : Option Int :=
  match s.data with
  | '-' :: rest => (parseDigits rest).map (fun n => -(n : Int))
  | '+' :: rest => (parseDigits rest).map (fun n => (n : Int))
  | cs => (parseDigits cs).map (fun n => (n : Int))

/-- The f-string `f'{fields_num:>5}'`: the decimal rendering of `n`
right-aligned in a field of width 5. -/
def padNum (n : Nat) : String :=
  String.mk (List.replicate (5 - (toString n).length) ' ') ++ toString n

/-- The `ValueError` message raised by `IOEntry.from_str` on a bad arity;
it names the expected and the actual field counts. -/
def arityErrorMsg (n : Nat) : String :=
  "Expected " ++ toString IO_ENTRY_FIELDS_NUM ++ " number of arguments in " ++
    "entry instead of specified " ++ padNum n

/-- Destructuring of the 13 fields plus the `int(...) * 1000` conversions of
`IOEntry.from_str`.  An `error` result models the `ValueError` that Python's
`int()` raises on an unparsable field. -/
def parse13 : List String → Except String IOEntry
  | [ts, op, dur, uuid, hid, ret, a0, a1, a2, a3, a4, a5, a6] =>
    match toIntPy ts, toIntPy dur, toIntPy hid, toIntPy ret with
    | some t, some d, some h, some r =>
      .ok ⟨t * 1000, op, d * 1000, uuid, h, r, a0, a1, a2, a3, a4, a5, a6⟩
    | _, _, _, _ => .error "invalid literal for int() with base 10"
  | fs => .error (arityErrorMsg fs.length)

/-- The arity check of `IOEntry.from_str`: arity 12 is padded with an empty
final field, arity 13 passes through, anything else raises a `ValueError`
naming the expected and actual counts. -/
def IOEntry.fromFields (fields : List String) : Except String IOEntry :=
  if fields.length = IO_ENTRY_FIELDS_NUM - 1 then
    parse13 (fields ++ [""])
  else if fields.length = IO_ENTRY_FIELDS_NUM then
    parse13 fields
  else
    .error (arityErrorMsg fields.length)

/-- `IOEntry.from_str`: split the line on `','` and parse the fields. -/
def IOEntry.from_str (entry : String) : Except String IOEntry :=
  IOEntry.fromFields (entry.splitOn ",")

/-! ### Ordered association lists

Python `dict`s / `OrderedDict`s preserve insertion order and overwrite in
place; `findA`/`insertA` give exactly those semantics on association lists. -/

/-- First value bound to `key`, searching in insertion order. -/
def findA {α : Type} : List (String × α) → String → Option α
  | [], _ => none
  | (k, v) :: rest, key => if k = key then some v else findA rest key

/-- `d[key] = v`: overwrite in place when the key exists, append otherwise. -/
def insertA {α : Type} : List (String × α) → String → α → List (String × α)
  | [], key, v => [(key, v)]
  | (k, w) :: rest, key, v =>
    if k = key then (k, v) :: rest else (k, w) :: insertA rest key v

/-- The state of an `IOTraceParser` object. -/
structure ParserState where
  syscalls : List Syscall
  io_duration : Int
  start_timestamp : Int
  end_timestamp : Int
  mount_dir_uuid : String
  masked_files : List (String × String)
  /-- the `root_dir` layer of the `ChainMap` -/
  root_dir : List (String × File)
  /-- the `initial_files` layer of the `ChainMap` -/
  initial_files : List (String × File)
  /-- the `_current_files` layer of the `ChainMap` (written by `_env[k] = v`) -/
  current_files : List (String × File)
  /-- `_open_fds` (a Python `set`; kept duplicate-free by construction) -/
  open_fds : List Int
  /-- `_pending_lookups`: path → (timestamp, duration) pairs, newest first -/
  pending_lookups : List (String × List (Int × Int))
  /-- store of the mutable `[known_children, unknown_children]` lists -/
  cells : List (Int × Int)
deriving DecidableEq

/-- `self._env.get(uuid)`: probe `_current_files`, then `initial_files`,
then `root_dir` (the `ChainMap` search order). -/
def envGet (s : ParserState) (uuid : String) : Option File :=
  match findA s.current_files uuid with
  | some f => some f
  | none =>
    match findA s.initial_files uuid with
    | some f => some f
    | none => findA s.root_dir uuid

/-- `self._env[uuid] = f`: a `ChainMap` write goes to the first map. -/
def envSet (s : ParserState) (uuid : String) (f : File) : ParserState :=
  { s with current_files := insertA s.current_files uuid f }

/-- Read the directory-size cell referenced by a `File`; `none` models the
`TypeError` raised when Python subscripts an `int` size (regular file), and
covers the unreachable dangling-reference case. -/
def sizeCell (s : ParserState) (f : File) : Option (Nat × Int × Int) :=
  match f.size with
  | .fsz _ => none
  | .dref r =>
    match s.cells[r]? with
    | some (k, u) => some (r, k, u)
    | none => none

/-- Overwrite directory-size cell `r`. -/
def cellSet (s : ParserState) (r : Nat) (c : Int × Int) : ParserState :=
  { s with cells := s.cells.set r c }

/-- Allocate a fresh `[0, 0]` directory-size list, returning its cell index. -/
def cellAlloc (s : ParserState) : Nat × ParserState :=
  (s.cells.length, { s with cells := s.cells ++ [(0, 0)] })

/-- `self._pending_lookups.get(path, [])`. -/
def pendingGet (s : ParserState) (path : String) : List (Int × Int) :=
  (findA s.pending_lookups path).getD []

/-- Replace the pending-lookup queue stored for `path`. -/
def pendingSet (s : ParserState) (path : String) (q : List (Int × Int)) :
    ParserState :=
  { s with pending_lookups := insertA s.pending_lookups path q }

/-- `self._pending_lookups.setdefault(path, []).insert(0, pl)`: the new
pending pair goes to the *front* of the queue for `path`. -/
def pendingEnqueue (s : ParserState) (path : String) (pl : Int × Int) :
    ParserState :=
  pendingSet s path (pl :: pendingGet s path)

/-- The coalescence condition of `_take_pending_lookup`:
`0 <= timestamp - (pl_timestamp + pl_duration) <= CTX_SWITCH_DELAY`. -/
def fitsWindow (t : Int) (pl : Int × Int) : Bool :=
  0 ≤ t - (pl.1 + pl.2) && t - (pl.1 + pl.2) ≤ CTX_SWITCH_DELAY

/-- The scan inside `_take_pending_lookup`: find the first queue entry that
fits the window and remove it.  (Python finds the first fitting entry and
calls `list.remove` on it; since fitting depends only on the entry's value,
the first element equal to it is the found one, so removing the first equal
element and removing at the scan position coincide.) -/
def takePendingAux (t : Int) : List (Int × Int) →
    Option ((Int × Int) × List (Int × Int))
  | [] => none
  | pl :: rest =>
    if fitsWindow t pl then some (pl, rest)
    else
      match takePendingAux t rest with
      | some (found, rest') => some (found, pl :: rest')
      | none => none

/-- `IOTraceParser._take_pending_lookup`: drain the first fitting pending
lookup on `path` and fuse timings, or return `(timestamp, duration)`
unchanged when none fits. -/
def takePendingLookup (s : ParserState) (path : String) (t d : Int) :
    (Int × Int) × ParserState :=
  match takePendingAux t (pendingGet s path) with
  | some ((tl, _dl), rest) => ((tl, t + d - tl), pendingSet s path rest)
  | none => ((t, d), s)

/-- `os.path.join` for the two-argument shapes the parser uses. -/
def osPathJoin (parent name : String) : String :=
  if name.data.head? = some '/' then name
  else if parent = "" then name
  else if parent.data.getLast? = some '/' then parent ++ name
  else parent ++ "/" ++ name

/-- `IOTraceParser._join_path`: join and apply the path-mask table. -/
def joinPath (s : ParserState) (parent name : String) : String :=
  let path := osPathJoin parent name
  (findA s.masked_files path).getD path

/-- Append an emitted syscall record (`self.syscalls.append(...)`). -/
def emit (s : ParserState) (sc : Syscall) : ParserState :=
  { s with syscalls := s.syscalls ++ [sc] }

/-- `self._open_fds.add(h)` (a set add: no duplicates). -/
def addFd (s : ParserState) (h : Int) : ParserState :=
  if s.open_fds.contains h then s else { s with open_fds := s.open_fds ++ [h] }

/-- `self._open_fds.remove(h)` after a successful membership check. -/
def removeFd (s : ParserState) (h : Int) : ParserState :=
  { s with open_fds := s.open_fds.filter (fun x => x ≠ h) }

/-!  ### Per-opcode handlers

Each handler mirrors the order of operations of the Python method: every
conversion or environment probe that can raise happens at the position where
Python evaluates it, and mutations performed before a raise stay in the
returned state (second component `false`). -/

/-- The `if uuid not in self._env:` block of `IOTraceParser.lookup`: bump
the parent's `[known, unknown]` pair and install the child `File` in the
root or initial layer.  `none` models the `TypeError` raised by
`parent_dir.size[0]` when the parent is a regular file. -/
def lookupInsert (s : ParserState) (e : IOEntry) (parent_dir : File)
    (path : String) : Option ParserState :=
  if (envGet s e.arg1).isSome then some s
  else
    match sizeCell s parent_dir with
    | none => none
    | some (r, k, u) =>
      let s1 := cellSet s r (k + 1, u - 1)
      let szState : FSize × ParserState :=
        if e.arg2 = "f" then (FSize.fsz ((toIntPy e.arg3).getD 0), s1)
        else
          let alloc := cellAlloc s1
          (FSize.dref alloc.1, alloc.2)
      let f := File.mk path e.arg2 szState.1
      some (if e.uuid = s.mount_dir_uuid then
              { szState.2 with
                root_dir := insertA szState.2.root_dir e.arg1 f }
            else
              { szState.2 with
                initial_files := insertA szState.2.initial_files e.arg1 f })

/-- `IOTraceParser.lookup`. -/
def IOTraceParser.lookup (s : ParserState) (e : IOEntry) : ParserState × Bool :=
  -- `file_size = int(entry.arg3) if file_type == 'f' else [0, 0]`; the int
  -- conversion can raise here; the fresh `[0, 0]` list is only observable
  -- once installed in a `File`, so its cell is allocated at insertion below.
  if e.arg2 = "f" ∧ toIntPy e.arg3 = none then (s, false)
  else
    match envGet s e.uuid with
    | none => (s, false)
    | some parent_dir =>
      let path := joinPath s parent_dir.path e.arg0
      match lookupInsert s e parent_dir path with
      | none => (s, false)
      | some s2 =>
        let taken := takePendingLookup s2 parent_dir.path e.timestamp e.duration
        (pendingEnqueue taken.2 path taken.1, true)

/-- `IOTraceParser.getattr`. -/
def IOTraceParser.getattr (s : ParserState) (e : IOEntry) : ParserState × Bool :=
  match envGet s e.uuid with
  | none => (s, false)
  | some f =>
    let taken := takePendingLookup s f.path e.timestamp e.duration
    (emit taken.2 (.GetAttr taken.1.1 taken.1.2 f.path), true)

/-- `IOTraceParser.setattr`. -/
def IOTraceParser.setattr (s : ParserState) (e : IOEntry) : ParserState × Bool :=
  match toIntPy e.arg0, toIntPy e.arg1, toIntPy e.arg2, toIntPy e.arg3,
      toIntPy e.arg4 with
  | some set_mask, some mode, some size, some atime, some mtime =>
    match envGet s e.uuid with
    | none => (s, false)
    | some f =>
      let taken := takePendingLookup s f.path e.timestamp e.duration
      (emit taken.2
        (.SetAttr taken.1.1 taken.1.2 f.path set_mask mode size atime mtime),
       true)
  | _, _, _, _, _ => (s, false)

/-- `IOTraceParser.readdir`. -/
def IOTraceParser.readdir (s : ParserState) (e : IOEntry) : ParserState × Bool :=
  match toIntPy e.arg1, toIntPy e.arg2 with
  | some offset, some entries_num =>
    if offset > 0 ∧ entries_num = 0 then (s, true)
    else
      match envGet s e.uuid with
      | none => (s, false)
      | some directory =>
        let upd : Option ParserState :=
          if e.uuid ≠ s.mount_dir_uuid then
            match sizeCell s directory with
            | none => none
            | some (r, k, u) =>
              some (cellSet s r (k, max (offset + entries_num - 2 - k) u))
          else some s
        match upd with
        | none => (s, false)
        | some s1 =>
          let taken := takePendingLookup s1 directory.path e.timestamp e.duration
          (emit taken.2
            (.ReadDir taken.1.1 taken.1.2 directory.path offset entries_num),
           true)
  | _, _ => (s, false)

/-- `IOTraceParser.open` (named `openOp` because `open` is a Lean keyword). -/
def IOTraceParser.openOp (s : ParserState) (e : IOEntry) : ParserState × Bool :=
  match toIntPy e.arg0 with
  | some flags =>
    match envGet s e.uuid with
    | none => (s, false)
    | some f =>
      let taken := takePendingLookup s f.path e.timestamp e.duration
      let s1 := addFd taken.2 e.handle_id
      (emit s1 (.Open taken.1.1 taken.1.2 f.path flags e.handle_id), true)
  | none => (s, false)

/-- `IOTraceParser.flush`: deliberately a no-op (`close` was already
scheduled by `release`). -/
def IOTraceParser.flush (s : ParserState) (_e : IOEntry) : ParserState × Bool :=
  (s, true)

/-- `IOTraceParser.create`. -/
def IOTraceParser.create (s : ParserState) (e : IOEntry) : ParserState × Bool :=
  match toIntPy e.arg2, toIntPy e.arg3 with
  | some mode, some flags =>
    match envGet s e.uuid with
    | none => (s, false)
    | some parent_dir =>
      match sizeCell s parent_dir with
      | none => (s, false)
      | some (r, k, u) =>
        let s1 := cellSet s r (k + 1, u)
        let path := joinPath s1 parent_dir.path e.arg0
        let s2 := envSet s1 e.arg1 (File.mk path "f" (FSize.fsz 0))
        let taken := takePendingLookup s2 parent_dir.path e.timestamp e.duration
        let s3 := addFd taken.2 e.handle_id
        (emit s3 (.Create taken.1.1 taken.1.2 path flags mode e.handle_id), true)
  | _, _ => (s, false)

/-- `IOTraceParser.mkdir`. -/
def IOTraceParser.mkdir (s : ParserState) (e : IOEntry) : ParserState × Bool :=
  match toIntPy e.arg2 with
  | some mode =>
    match envGet s e.uuid with
    | none => (s, false)
    | some parent_dir =>
      match sizeCell s parent_dir with
      | none => (s, false)
      | some (r, k, u) =>
        let s1 := cellSet s r (k + 1, u)
        let path := joinPath s1 parent_dir.path e.arg0
        let alloc := cellAlloc s1
        let s2 := envSet alloc.2 e.arg1 (File.mk path "d" (FSize.dref alloc.1))
        let taken := takePendingLookup s2 parent_dir.path e.timestamp e.duration
        (emit taken.2 (.MkDir taken.1.1 taken.1.2 path mode), true)
  | none => (s, false)

/-- `IOTraceParser.mknod`. -/
def IOTraceParser.mknod (s : ParserState) (e : IOEntry) : ParserState × Bool :=
  match toIntPy e.arg2 with
  | some mode =>
    match envGet s e.uuid with
    | none => (s, false)
    | some parent_dir =>
      match sizeCell s parent_dir with
      | none => (s, false)
      | some (r, k, u) =>
        let s1 := cellSet s r (k + 1, u)
        let path := joinPath s1 parent_dir.path e.arg0
        let s2 := envSet s1 e.arg1 (File.mk path "f" (FSize.fsz 0))
        let taken := takePendingLookup s2 parent_dir.path e.timestamp e.duration
        (emit taken.2 (.MkNod taken.1.1 taken.1.2 path mode), true)
  | none => (s, false)

/-- `IOTraceParser.unlink`.  The parent decrement persists even when the
target UUID (`arg1`) later turns out to be unresolvable. -/
def IOTraceParser.unlink (s : ParserState) (e : IOEntry) : ParserState × Bool :=
  match envGet s e.uuid with
  | none => (s, false)
  | some parent_dir =>
    match sizeCell s parent_dir with
    | none => (s, false)
    | some (r, k, u) =>
      let s1 := cellSet s r (k - 1, u)
      match envGet s1 e.arg1 with
      | none => (s1, false)
      | some file =>
        let taken := takePendingLookup s1 file.path e.timestamp e.duration
        if file.type = "d" then
          (emit taken.2 (.RmDir taken.1.1 taken.1.2 file.path), true)
        else
          (emit taken.2 (.Unlink taken.1.1 taken.1.2 file.path), true)

/-- `IOTraceParser.rename`.  The source-parent decrement persists even when
a later UUID probe raises.  The destination `File` shares the source
`File`'s size (the same list object in Python, the same cell here). -/
def IOTraceParser.rename (s : ParserState) (e : IOEntry) : ParserState × Bool :=
  match envGet s e.uuid with
  | none => (s, false)
  | some src_parent_dir =>
    match sizeCell s src_parent_dir with
    | none => (s, false)
    | some (r, k, u) =>
      let s1 := cellSet s r (k - 1, u)
      match envGet s1 e.arg1 with
      | none => (s1, false)
      | some src_file =>
        let src_path := joinPath s1 src_parent_dir.path e.arg0
        match envGet s1 e.arg2 with
        | none => (s1, false)
        | some dst_parent_dir =>
          match sizeCell s1 dst_parent_dir with
          | none => (s1, false)
          | some (r2, k2, u2) =>
            let s2 := cellSet s1 r2 (k2 + 1, u2)
            let dst_path := joinPath s2 dst_parent_dir.path e.arg3
            let s3 := envSet s2 e.arg4
              (File.mk dst_path src_file.type src_file.size)
            let taken := takePendingLookup s3 src_path e.timestamp e.duration
            (emit taken.2 (.Rename taken.1.1 taken.1.2 src_path dst_path), true)

/-- `IOTraceParser.getxattr`. -/
def IOTraceParser.getxattr (s : ParserState) (e : IOEntry) : ParserState × Bool :=
  match envGet s e.uuid with
  | none => (s, false)
  | some f =>
    let taken := takePendingLookup s f.path e.timestamp e.duration
    (emit taken.2 (.GetXAttr taken.1.1 taken.1.2 f.path e.arg0), true)

/-- `IOTraceParser.setxattr`: exclusive-create flag when `arg2` is truthy,
else replace-only when `arg3` is truthy, else `0`; note `int(entry.arg3)` is
never evaluated when `int(entry.arg2)` is truthy. -/
def IOTraceParser.setxattr (s : ParserState) (e : IOEntry) : ParserState × Bool :=
  let flagsOpt : Option Int :=
    match toIntPy e.arg2 with
    | none => none
    | some c =>
      if c ≠ 0 then some XATTR_CREATE
      else
        match toIntPy e.arg3 with
        | none => none
        | some rp => if rp ≠ 0 then some XATTR_REPLACE else some 0
  match flagsOpt with
  | none => (s, false)
  | some flags =>
    match envGet s e.uuid with
    | none => (s, false)
    | some f =>
      let taken := takePendingLookup s f.path e.timestamp e.duration
      (emit taken.2 (.SetXAttr taken.1.1 taken.1.2 f.path e.arg0 e.arg1 flags),
       true)

/-- `IOTraceParser.removexattr`. -/
def IOTraceParser.removexattr (s : ParserState) (e : IOEntry) :
    ParserState × Bool :=
  match envGet s e.uuid with
  | none => (s, false)
  | some f =>
    let taken := takePendingLookup s f.path e.timestamp e.duration
    (emit taken.2 (.RemoveXAttr taken.1.1 taken.1.2 f.path e.arg0), true)

/-- `IOTraceParser.listxattr`. -/
def IOTraceParser.listxattr (s : ParserState) (e : IOEntry) : ParserState × Bool :=
  match envGet s e.uuid with
  | none => (s, false)
  | some f =>
    let taken := takePendingLookup s f.path e.timestamp e.duration
    (emit taken.2 (.ListXAttr taken.1.1 taken.1.2 f.path), true)

/-- `IOTraceParser.read`: purely handle-based, never consults the
environment and never drains a pending lookup. -/
def IOTraceParser.read (s : ParserState) (e : IOEntry) : ParserState × Bool :=
  match toIntPy e.arg0, toIntPy e.arg1 with
  | some offset, some size =>
    (emit s (.Read e.timestamp e.duration e.handle_id size offset), true)
  | _, _ => (s, false)

/-- `IOTraceParser.write`: purely handle-based, like `read`. -/
def IOTraceParser.write (s : ParserState) (e : IOEntry) : ParserState × Bool :=
  match toIntPy e.arg0, toIntPy e.arg1 with
  | some offset, some size =>
    (emit s (.Write e.timestamp e.duration e.handle_id size offset), true)
  | _, _ => (s, false)

/-- `IOTraceParser.fsync`: emitted only when the handle is currently open;
an fsync on a closed handle is silently skipped (still a success). -/
def IOTraceParser.fsync (s : ParserState) (e : IOEntry) : ParserState × Bool :=
  if s.open_fds.contains e.handle_id then
    match toIntPy e.arg0 with
    | none => (s, false)
    | some k =>
      (emit s (.Fsync e.timestamp e.duration e.handle_id (k != 0)), true)
  else (s, true)

/-- `IOTraceParser.release`: `self._open_fds.remove(...)` raises `KeyError`
when the handle is not open, rejecting the record before any emission. -/
def IOTraceParser.release (s : ParserState) (e : IOEntry) : ParserState × Bool :=
  if s.open_fds.contains e.handle_id then
    (emit (removeFd s e.handle_id)
      (.Release e.timestamp e.duration e.handle_id), true)
  else (s, false)

/-- The dynamic dispatch `operation = getattr(self, entry.op)` followed by
`operation(entry)`.  An opcode with no handler raises (`AttributeError`, or
a `TypeError` when the attribute is not a unary handler) without mutating
the state. -/
def step (s : ParserState) (e : IOEntry) : ParserState × Bool :=
  match e.op with
  | "lookup" => IOTraceParser.lookup s e
  | "getattr" => IOTraceParser.getattr s e
  | "setattr" => IOTraceParser.setattr s e
  | "readdir" => IOTraceParser.readdir s e
  | "open" => IOTraceParser.openOp s e
  | "flush" => IOTraceParser.flush s e
  | "create" => IOTraceParser.create s e
  | "mkdir" => IOTraceParser.mkdir s e
  | "mknod" => IOTraceParser.mknod s e
  | "unlink" => IOTraceParser.unlink s e
  | "rename" => IOTraceParser.rename s e
  | "getxattr" => IOTraceParser.getxattr s e
  | "setxattr" => IOTraceParser.setxattr s e
  | "removexattr" => IOTraceParser.removexattr s e
  | "listxattr" => IOTraceParser.listxattr s e
  | "read" => IOTraceParser.read s e
  | "write" => IOTraceParser.write s e
  | "fsync" => IOTraceParser.fsync s e
  | "release" => IOTraceParser.release s e
  | _ => (s, false)

/-- One iteration of the record loop of `IOTraceParser.parse`: dispatch the
entry; only when the handler ran without raising, account its duration into
`io_duration` and push `end_timestamp` forward. -/
def applyEntry (s : ParserState) (e : IOEntry) : ParserState :=
  let r := step s e
  if r.2 then
    { r.1 with
      io_duration := r.1.io_duration + e.duration,
      end_timestamp := max r.1.end_timestamp (e.timestamp + e.duration) }
  else r.1

/-- The record loop of `IOTraceParser.parse` over already-parsed entries. -/
def runEntries (s : ParserState) (es : List IOEntry) : ParserState :=
  es.foldl applyEntry s

/-- One iteration of the record loop starting from a raw line: a line that
fails `IOEntry.from_str` is logged and skipped. -/
def applyLine (s : ParserState) (line : String) : ParserState :=
  match IOEntry.from_str line with
  | .error _ => s
  | .ok e => applyEntry s e

/-- The parser state right after the mount entry has seeded the root layer
(`self.root_dir[mount_entry.uuid] = File('', 'd', [0, 0])`). -/
def initState (mountUuid : String) (masks : List (String × String)) :
    ParserState :=
  { syscalls := [], io_duration := 0, start_timestamp := 0, end_timestamp := 0,
    mount_dir_uuid := mountUuid, masked_files := masks,
    root_dir := [(mountUuid, File.mk "" "d" (FSize.dref 0))],
    initial_files := [], current_files := [],
    open_fds := [], pending_lookups := [], cells := [(0, 0)] }

/-- Stable insertion into a timestamp-sorted list (earlier-emitted records
stay before later ones with an equal timestamp, as with Python's stable
sort). -/
def insertByTs (x : Syscall) : List Syscall → List Syscall
  | [] => [x]
  | y :: ys =>
    if x.timestamp ≤ y.timestamp then x :: y :: ys else y :: insertByTs x ys

/-- `self.syscalls.sort(key=lambda syscall: syscall.timestamp)` as a stable
sort by timestamp. -/
def sortSyscalls : List Syscall → List Syscall
  | [] => []
  | x :: xs => insertByTs x (sortSyscalls xs)

/-- The finalisation tail of `IOTraceParser.parse`: sort the emitted
syscalls, then read `self.syscalls[0].timestamp` into `start_timestamp`.
`none` models the `IndexError` that Python raises (outside any per-record
`try`) when no syscall was emitted. -/
def finalize (s : ParserState) : Option ParserState :=
  let sorted := sortSyscalls s.syscalls
  match sorted.head? with
  | none => none
  | some first =>
    some { s with syscalls := sorted, start_timestamp := first.timestamp }

/-! ### Concrete states and entries used in the closed evaluations -/

/-- Parser state right after a mount record with UUID `"M"`, no path masks. -/
def sM : ParserState := initState "M" []

/-- `sM` with one pending lookup `(0, 0)` queued on path `"a"`. -/
def sPending : ParserState := { sM with pending_lookups := [("a", [(0, 0)])] }

/-- `sM` with one pending lookup `(100, 50)` queued on path `"a"`. -/
def sPending100 : ParserState :=
  { sM with pending_lookups := [("a", [(100, 50)])] }

/-- The opcodes whose handlers resolve `entry.uuid` before doing anything
observable: exactly those for which the unresolvable-UUID rejection of the
claim actually holds. -/
def resolvingOps : List String :=
  ["getattr", "setattr", "readdir", "open", "create", "mkdir", "mknod",
   "unlink", "rename", "getxattr", "setxattr", "removexattr", "listxattr"]

/-- The early-return case of `readdir` (`offset > 0 and entries_num == 0`),
which returns before the UUID is resolved. -/
def readdirSkips (e : IOEntry) : Bool :=
  e.op == "readdir" &&
    match toIntPy e.arg1, toIntPy e.arg2 with
    | some offset, some entries_num =>
        decide (offset > 0) && decide (entries_num = 0)
    | _, _ => false

/-- A `getattr` record whose UUID field resolves to nothing. -/
def entryGetattrBadUuid : IOEntry :=
  ⟨100000, "getattr", 500, "nope", 0, 0, "", "", "", "", "", "", ""⟩

/-- A first `lookup` of child `"a"` (UUID `"U"`) under the mount root. -/
def entryLookupA1 : IOEntry :=
  ⟨100000, "lookup", 2000, "M", 0, 0, "a", "U", "f", "0", "", "", ""⟩

/-- A second `lookup` of the same child, one µs later. -/
def entryLookupA2 : IOEntry :=
  ⟨101000, "lookup", 1000, "M", 0, 0, "a", "U", "f", "0", "", "", ""⟩

/-- A `getattr` of `"U"` adjacent to both pending lookups. -/
def entryGetattrU : IOEntry :=
  ⟨102000, "getattr", 500, "U", 0, 0, "", "", "", "", "", "", ""⟩

/-- A `read` record whose UUID field resolves to nothing. -/
def entryReadBadUuid : IOEntry :=
  ⟨230000, "read", 20000, "garbage", 7, 0, "0", "4096", "", "", "", "", ""⟩

/-- `Except.ok`-ness as a Bool: "the line is accepted". -/
def exceptOk {ε α : Type} : Except ε α → Bool
  | .ok _ => true
  | .error _ => false

/-- Do the four integer fields of a 13-field record parse? -/
def intFieldsOk : List String → Bool
  | [ts, _, dur, _, hid, ret, _, _, _, _, _, _, _] =>
    (toIntPy ts).isSome && (toIntPy dur).isSome && (toIntPy hid).isSome &&
      (toIntPy ret).isSome
  | _ => false

/-- An `open` of the root UUID `"M"` with handle 7. -/
def entryOpen7 : IOEntry :=
  ⟨215000, "open", 5000, "M", 7, 0, "0", "", "", "", "", "", ""⟩

/-- The matching `release` of handle 7. -/
def entryRelease7 : IOEntry :=
  ⟨260000, "release", 2000, "M", 7, 0, "", "", "", "", "", "", ""⟩

/-- An `fsync` (`data_only = 1`) of handle 7. -/
def entryFsync7 : IOEntry :=
  ⟨270000, "fsync", 1000, "M", 7, 0, "1", "", "", "", "", "", ""⟩

/-- State with handle 7 open. -/
def sOpened : ParserState := runEntries sM [entryOpen7]

/-- State after handle 7 has been released again. -/
def sReleased : ParserState := runEntries sM [entryOpen7, entryRelease7]

/-- A `lookup` of directory child `"d"` (UUID `"D"`) under the mount root. -/
def entryLookupD : IOEntry :=
  ⟨100000, "lookup", 1000, "M", 0, 0, "d", "D", "d", "", "", "", ""⟩

/-- State in which directory `"D"` is known, with no recorded children. -/
def sWithD : ParserState := runEntries sM [entryLookupD]

/-- A paginated `readdir` of `"D"` at offset 0 returning 10 entries. -/
def entryReadDirD : IOEntry :=
  ⟨101000, "readdir", 3000, "D", 0, 0, "10", "0", "10", "", "", "", ""⟩

/-- A `flush` record (dropped by design, not an error). -/
def entryFlush3 : IOEntry :=
  ⟨110000, "flush", 1000, "U", 3, 0, "", "", "", "", "", "", ""⟩

/-- Every directory-size cell has a non-negative `known_children`. -/
def KnownNonneg (cs : List (Int × Int)) : Prop := ∀ c ∈ cs, 0 ≤ c.1

/-- An `unlink` record naming the mount root as both parent and target. -/
def entryUnlinkRoot : IOEntry :=
  ⟨300000, "unlink", 1000, "M", 0, 0, "x", "M", "", "", "", "", ""⟩

/-- An `unlink` of child `"D"` under the mount root (whose
`known_children` is 1 in `sWithD`). -/
def entryUnlinkD : IOEntry :=
  ⟨300000, "unlink", 1000, "M", 0, 0, "d", "D", "", "", "", "", ""⟩

/-- Is this syscall record a `close` of handle `h`? -/
def isReleaseOf (h : Int) : Syscall → Bool
  | .Release _ _ hid => hid == h
  | _ => false

/-- Is this syscall record an `open`/`create` of handle `h`? -/
def isOpenerOf (h : Int) : Syscall → Bool
  | .Open _ _ _ _ hid => hid == h
  | .Create _ _ _ _ _ hid => hid == h
  | _ => false

/-- Handle `h` has an `open`/`create` in `l` with no `close(h)` after it. -/
def openPending (h : Int) (l : List Syscall) : Prop :=
  ∃ p1 y p2, l = p1 ++ y :: p2 ∧ isOpenerOf h y = true
    ∧ ∀ z ∈ p2, isReleaseOf h z = false

/-- Every `close(h)` in `l` has a prior `open(_, _, h)` or `create(…, h)`
with no other `close(h)` between them. -/
def goodCloses (l : List Syscall) : Prop :=
  ∀ pre x post (h : Int), l = pre ++ x :: post → isReleaseOf h x = true →
    openPending h pre

/-- The invariant tying `_open_fds` to the emitted stream: emitted closes
are properly bracketed, and every currently-open handle has an unmatched
opener. -/
def FdsInv (s : ParserState) : Prop :=
  goodCloses s.syscalls ∧ ∀ h ∈ s.open_fds, openPending h s.syscalls

/-! ### Projection lemmas for the state-manipulation helpers -/

@[simp] theorem takePendingLookup_syscalls (s : ParserState) (p : String)
    (t d : Int) : (takePendingLookup s p t d).2.syscalls = s.syscalls := by
  unfold takePendingLookup; split <;> rfl

@[simp] theorem takePendingLookup_open_fds (s : ParserState) (p : String)
    (t d : Int) : (takePendingLookup s p t d).2.open_fds = s.open_fds := by
  unfold takePendingLookup; split <;> rfl

@[simp] theorem takePendingLookup_cells (s : ParserState) (p : String)
    (t d : Int) : (takePendingLookup s p t d).2.cells = s.cells := by
  unfold takePendingLookup; split <;> rfl

@[simp] theorem takePendingLookup_mount (s : ParserState) (p : String)
    (t d : Int) :
    (takePendingLookup s p t d).2.mount_dir_uuid = s.mount_dir_uuid := by
  unfold takePendingLookup; split <;> rfl

@[simp] theorem emit_syscalls (s : ParserState) (sc : Syscall) :
    (emit s sc).syscalls = s.syscalls ++ [sc] := rfl

@[simp] theorem emit_open_fds (s : ParserState) (sc : Syscall) :
    (emit s sc).open_fds = s.open_fds := rfl

@[simp] theorem emit_cells (s : ParserState) (sc : Syscall) :
    (emit s sc).cells = s.cells := rfl

@[simp] theorem addFd_syscalls (s : ParserState) (h : Int) :
    (addFd s h).syscalls = s.syscalls := by
  unfold addFd; split <;> rfl

@[simp] theorem addFd_cells (s : ParserState) (h : Int) :
    (addFd s h).cells = s.cells := by
  unfold addFd; split <;> rfl

@[simp] theorem removeFd_syscalls (s : ParserState) (h : Int) :
    (removeFd s h).syscalls = s.syscalls := rfl

@[simp] theorem removeFd_cells (s : ParserState) (h : Int) :
    (removeFd s h).cells = s.cells := rfl

@[simp] theorem envSet_syscalls (s : ParserState) (u : String) (f : File) :
    (envSet s u f).syscalls = s.syscalls := rfl

@[simp] theorem envSet_open_fds (s : ParserState) (u : String) (f : File) :
    (envSet s u f).open_fds = s.open_fds := rfl

@[simp] theorem envSet_cells (s : ParserState) (u : String) (f : File) :
    (envSet s u f).cells = s.cells := rfl

@[simp] theorem cellSet_syscalls (s : ParserState) (r : Nat) (c : Int × Int) :
    (cellSet s r c).syscalls = s.syscalls := rfl

@[simp] theorem cellSet_open_fds (s : ParserState) (r : Nat) (c : Int × Int) :
    (cellSet s r c).open_fds = s.open_fds := rfl

@[simp] theorem cellSet_cells (s : ParserState) (r : Nat) (c : Int × Int) :
    (cellSet s r c).cells = s.cells.set r c := rfl

@[simp] theorem cellAlloc_syscalls (s : ParserState) :
    (cellAlloc s).2.syscalls = s.syscalls := rfl

@[simp] theorem cellAlloc_open_fds (s : ParserState) :
    (cellAlloc s).2.open_fds = s.open_fds := rfl

@[simp] theorem cellAlloc_cells (s : ParserState) :
    (cellAlloc s).2.cells = s.cells ++ [(0, 0)] := rfl

@[simp] theorem pendingSet_syscalls (s : ParserState) (p : String)
    (q : List (Int × Int)) : (pendingSet s p q).syscalls = s.syscalls := rfl

@[simp] theorem pendingSet_open_fds (s : ParserState) (p : String)
    (q : List (Int × Int)) : (pendingSet s p q).open_fds = s.open_fds := rfl

@[simp] theorem pendingSet_cells (s : ParserState) (p : String)
    (q : List (Int × Int)) : (pendingSet s p q).cells = s.cells := rfl

@[simp] theorem pendingEnqueue_syscalls (s : ParserState) (p : String)
    (pl : Int × Int) : (pendingEnqueue s p pl).syscalls = s.syscalls := rfl

@[simp] theorem pendingEnqueue_open_fds (s : ParserState) (p : String)
    (pl : Int × Int) : (pendingEnqueue s p pl).open_fds = s.open_fds := rfl

@[simp] theorem pendingEnqueue_cells (s : ParserState) (p : String)
    (pl : Int × Int) : (pendingEnqueue s p pl).cells = s.cells := rfl

/-! ### Characterisation of the pending-lookup scan -/

/-- The scan returns `none` exactly when no queued pair fits the window. -/
theorem takePendingAux_eq_none (t : Int) (q : List (Int × Int)) :
    takePendingAux t q = none ↔ ∀ y ∈ q, fitsWindow t y = false := by
  induction q with
  | nil => simp [takePendingAux]
  | cons pl rest ih =>
    by_cases hpl : fitsWindow t pl = true
    · simp [takePendingAux, hpl]
    · rw [Bool.not_eq_true] at hpl
      constructor
      · intro h y hy
        rcases List.mem_cons.mp hy with rfl | hy'
        · exact hpl
        · refine (ih.mp ?_) y hy'
          rcases hrest : takePendingAux t rest with _ | ⟨found, rest'⟩
          · rfl
          · simp [takePendingAux, hpl, hrest] at h
      · intro h
        have hnone : takePendingAux t rest = none :=
          ih.mpr (fun y hy => h y (List.mem_cons_of_mem _ hy))
        simp [takePendingAux, hpl, hnone]

/-- A successful scan returns a fitting pair and the queue with exactly that
occurrence removed; everything in front of the removed pair does not fit. -/
theorem takePendingAux_eq_some (t : Int) (q : List (Int × Int))
    (pl : Int × Int) (rest : List (Int × Int))
    (h : takePendingAux t q = some (pl, rest)) :
    fitsWindow t pl = true ∧
      ∃ pre post, q = pre ++ pl :: post ∧ rest = pre ++ post ∧
        ∀ y ∈ pre, fitsWindow t y = false := by
  induction q generalizing rest with
  | nil => simp [takePendingAux] at h
  | cons hd tl ih =>
    by_cases hhd : fitsWindow t hd = true
    · simp only [takePendingAux, hhd, if_true, Option.some.injEq,
        Prod.mk.injEq] at h
      obtain ⟨rfl, rfl⟩ := h
      exact ⟨hhd, [], tl, rfl, rfl, by simp⟩
    · rw [Bool.not_eq_true] at hhd
      rcases hrec : takePendingAux t tl with _ | ⟨found, rest'⟩
      · simp [takePendingAux, hhd, hrec] at h
      · simp only [takePendingAux, hhd, Bool.false_eq_true, if_false, hrec,
          Option.some.injEq, Prod.mk.injEq] at h
        obtain ⟨rfl, rfl⟩ := h
        obtain ⟨hfit, pre, post, h1, h2, hpre⟩ := ih rest' hrec
        refine ⟨hfit, hd :: pre, post, by simp [h1], by simp [h2], ?_⟩
        intro y hy
        rcases List.mem_cons.mp hy with rfl | hy'
        · exact hhd
        · exact hpre y hy'

/-- Inserting a binding makes it findable (overwrite-or-append semantics). -/
theorem findA_insertA_self {α : Type} (l : List (String × α)) (k : String)
    (v : α) : findA (insertA l k v) k = some v := by
  induction l with
  | nil => simp [insertA, findA]
  | cons p rest ih =>
    obtain ⟨k', w⟩ := p
    by_cases h : k' = k
    · simp [insertA, findA, h]
    · simp [insertA, findA, h, ih]

/-! ### Claims -/

/-- Claim C1: the spec fixes the coalescence window at 250 000 ns (250 µs
after the ×1000 ingest conversion), so an event whose gap to a pending
lookup is exactly 250 000 ns must be coalesced.  The code compares the
nanosecond gap against the raw constant `CTX_SWITCH_DELAY = 250`, never
converting it, although its own comment documents the delay as 250 µs: at a
gap of 250 000 ns (pending lookup `(0, 0)`, event at `t = 250000`) nothing
is coalesced and the queue is left untouched; only gaps of at most 250 ns
(here 250 versus 251) are coalesced.  Evaluation of
`_take_pending_lookup` at the failing input. -/
theorem C1_window_is_250ns_not_250us :
    (takePendingLookup sPending "a" 250000 1000).1 = (250000, 1000)
    ∧ (takePendingLookup sPending "a" 250000 1000).2 = sPending
    ∧ (takePendingLookup sPending "a" 250001 1000).1 = (250001, 1000)
    ∧ (takePendingLookup sPending "a" 250 1000).1 = (0, 1250)
    ∧ (takePendingLookup sPending "a" 251 1000).1 = (251, 1000)
    ∧ CTX_SWITCH_DELAY = 250 :=
  ⟨rfl, rfl, rfl, rfl, rfl, rfl⟩

/-- Claim C2 counterexample: a `read` record whose UUID is unresolvable is
*not* rejected — the handler never consults the environment.  It emits a
`read` syscall and contributes its duration to `io_duration` and
`end_timestamp`, refuting the claim's quantification over `read` (and the
other handle-based opcodes). -/
theorem C2_counterexample :
    envGet sM entryReadBadUuid.uuid = none
    ∧ entryReadBadUuid.op = "read"
    ∧ step sM entryReadBadUuid
        = ({ sM with syscalls := [Syscall.Read 230000 20000 7 4096 0] }, true)
    ∧ (runEntries sM [entryReadBadUuid]).io_duration = 20000
    ∧ (runEntries sM [entryReadBadUuid]).end_timestamp = 250000 := by
  refine ⟨rfl, rfl, ?_, ?_, ?_⟩ <;> decide

/-- Claim C2, amended: for every record whose opcode actually resolves its
UUID (all dispatched opcodes except the handle-based `read`, `write`,
`fsync`, `release` and the no-op `flush`, and except the early-return
`readdir` case), an unresolvable UUID rejects the record: the state is
completely unchanged — no syscall, no `io_duration`, no `end_timestamp`. -/
theorem C2_amended (s : ParserState) (e : IOEntry)
    (hop : e.op ∈ resolvingOps) (huuid : envGet s e.uuid = none)
    (hskip : readdirSkips e = false) :
    applyEntry s e = s := by
  have hstep : step s e = (s, false) := by
    simp only [resolvingOps, List.mem_cons, List.not_mem_nil, or_false] at hop
    rcases hop with h|h|h|h|h|h|h|h|h|h|h|h|h
    · simp [step, h, IOTraceParser.getattr, huuid]
    · simp only [step, h]
      unfold IOTraceParser.setattr
      split
      · simp [huuid]
      · rfl
    · simp only [step, h]
      unfold IOTraceParser.readdir
      split
      · rename_i offset entries_num heq1 heq2
        have hcond : ¬(offset > 0 ∧ entries_num = 0) := by
          simp [readdirSkips, h, heq1, heq2] at hskip
          tauto
        rw [if_neg hcond]
        simp [huuid]
      · rfl
    · simp only [step, h]
      unfold IOTraceParser.openOp
      split
      · simp [huuid]
      · rfl
    · simp only [step, h]
      unfold IOTraceParser.create
      split
      · simp [huuid]
      · rfl
    · simp only [step, h]
      unfold IOTraceParser.mkdir
      split
      · simp [huuid]
      · rfl
    · simp only [step, h]
      unfold IOTraceParser.mknod
      split
      · simp [huuid]
      · rfl
    · simp [step, h, IOTraceParser.unlink, huuid]
    · simp [step, h, IOTraceParser.rename, huuid]
    · simp [step, h, IOTraceParser.getxattr, huuid]
    · simp only [step, h]
      unfold IOTraceParser.setxattr
      rcases h2 : toIntPy e.arg2 with _ | c
      · simp [h2]
      · by_cases hc : c = 0
        · rcases h3 : toIntPy e.arg3 with _ | rp
          · simp [h2, hc, h3]
          · by_cases hrp : rp = 0 <;> simp [h2, hc, h3, hrp, huuid]
        · simp [h2, hc, huuid]
    · simp [step, h, IOTraceParser.removexattr, huuid]
    · simp [step, h, IOTraceParser.listxattr, huuid]
  simp [applyEntry, hstep]

/-- Witness for `C2_amended` at a concrete rejected `getattr` record. -/
theorem C2_amended_witness :
    ("getattr" ∈ resolvingOps ∧ envGet sM "nope" = none
      ∧ readdirSkips entryGetattrBadUuid = false)
    ∧ applyEntry sM entryGetattrBadUuid = sM :=
  ⟨⟨by decide, rfl, rfl⟩,
   C2_amended sM entryGetattrBadUuid (by decide) rfl rfl⟩

/-- Claim C3 counterexample: two pending lookups on path `"a"`, both fitting
the window of the following `getattr` (both gaps are 0 ns).  The claim says
the earliest-inserted `(100000, 2000)` wins; the code inserts at the front
and scans from the front, so the latest-inserted `(101000, 1000)` wins and
the emitted syscall is `GetAttr 101000 1500`, not `GetAttr 100000 2500`. -/
theorem C3_counterexample :
    pendingGet (runEntries sM [entryLookupA1, entryLookupA2]) "a"
      = [(101000, 1000), (100000, 2000)]
    ∧ fitsWindow 102000 (100000, 2000) = true
    ∧ fitsWindow 102000 (101000, 1000) = true
    ∧ (runEntries sM [entryLookupA1, entryLookupA2, entryGetattrU]).syscalls
      = [Syscall.GetAttr 101000 1500 "a"]
    ∧ Syscall.GetAttr 101000 1500 "a" ≠ Syscall.GetAttr 100000 2500 "a" := by
  refine ⟨?_, rfl, rfl, ?_, ?_⟩ <;> decide

/-- Claim C3, amended: the queue is scanned from the front and the first
fitting entry in queue order wins; since `lookup` inserts new pending pairs
at the *front* of the queue, the queue is ordered newest first and the
latest-inserted fitting entry wins (LIFO, not FIFO). -/
theorem C3_amended :
    (∀ (t : Int) (pre post : List (Int × Int)) (x : Int × Int),
        (∀ y ∈ pre, fitsWindow t y = false) → fitsWindow t x = true →
        takePendingAux t (pre ++ x :: post) = some (x, pre ++ post))
    ∧ ∀ (s : ParserState) (path : String) (pl : Int × Int),
        pendingGet (pendingEnqueue s path pl) path = pl :: pendingGet s path := by
  constructor
  · intro t pre post x hpre hx
    induction pre with
    | nil => simp [takePendingAux, hx]
    | cons y ys ih =>
      have hy : fitsWindow t y = false := hpre y (List.mem_cons_self y ys)
      have hrec := ih (fun z hz => hpre z (List.mem_cons_of_mem _ hz))
      simp [takePendingAux, hy, hrec]
  · intro s path pl
    simp [pendingEnqueue, pendingSet, pendingGet, findA_insertA_self]

/-- Witness for `C3_amended` at a concrete queue and a concrete state. -/
theorem C3_amended_witness :
    takePendingAux 250 [(500, 500), (0, 0)] = some ((0, 0), [(500, 500)])
    ∧ pendingGet (pendingEnqueue sM "a" (1, 2)) "a"
        = (1, 2) :: pendingGet sM "a" :=
  ⟨C3_amended.1 250 [(500, 500)] [] (0, 0) (by decide) (by decide),
   C3_amended.2 sM "a" (1, 2)⟩

/-- Claim C4: when no pending lookup on the path fits, the timing is
`(t, d)` and the state (in particular every pending queue) is unchanged;
when the scan succeeds on `(tl, dl)`, that entry is removed from the queue
and the fused timing is `(tl, t + d − tl)`; a `getattr` record emits its
syscall with exactly the pair returned by `_take_pending_lookup` (the
`lookup` handler's front insertion of the same pair is `C3_amended`.2). -/
theorem C4_fused_timing (s : ParserState) (path : String) (t d : Int) :
    ((∀ y ∈ pendingGet s path, fitsWindow t y = false) →
        takePendingLookup s path t d = ((t, d), s))
    ∧ (∀ tl dl rest,
        takePendingAux t (pendingGet s path) = some ((tl, dl), rest) →
        fitsWindow t (tl, dl) = true
        ∧ (∃ pre post, pendingGet s path = pre ++ (tl, dl) :: post
            ∧ rest = pre ++ post)
        ∧ takePendingLookup s path t d
            = ((tl, t + d - tl), pendingSet s path rest))
    ∧ ∀ (e : IOEntry) (f : File), e.op = "getattr" → envGet s e.uuid = some f →
        step s e
          = (emit (takePendingLookup s f.path e.timestamp e.duration).2
              (Syscall.GetAttr
                (takePendingLookup s f.path e.timestamp e.duration).1.1
                (takePendingLookup s f.path e.timestamp e.duration).1.2 f.path),
             true) := by
  refine ⟨?_, ?_, ?_⟩
  · intro hnone
    have h := (takePendingAux_eq_none t (pendingGet s path)).mpr hnone
    unfold takePendingLookup
    rw [h]
  · intro tl dl rest h
    obtain ⟨hfit, pre, post, h1, h2, -⟩ :=
      takePendingAux_eq_some t (pendingGet s path) (tl, dl) rest h
    refine ⟨hfit, ⟨pre, post, h1, h2⟩, ?_⟩
    unfold takePendingLookup
    rw [h]
  · intro e f hop hf
    simp [step, hop, IOTraceParser.getattr, hf]

/-- Witness for `C4_fused_timing`: a fitting pending lookup `(100, 50)` is
drained by an event at `t = 200`, `d = 30`, and the timing is fused. -/
theorem C4_fused_timing_witness :
    takePendingLookup sPending100 "a" 200 30
      = ((100, 130), pendingSet sPending100 "a" []) :=
  ((C4_fused_timing sPending100 "a" 200 30).2.1 100 50 [] rfl).2.2

/-! ### More helper lemmas -/

@[simp] theorem applyEntry_syscalls (s : ParserState) (e : IOEntry) :
    (applyEntry s e).syscalls = (step s e).1.syscalls := by
  unfold applyEntry; cases hb : (step s e).2 <;> simp [hb]

@[simp] theorem applyEntry_open_fds (s : ParserState) (e : IOEntry) :
    (applyEntry s e).open_fds = (step s e).1.open_fds := by
  unfold applyEntry; cases hb : (step s e).2 <;> simp [hb]

@[simp] theorem applyEntry_cells (s : ParserState) (e : IOEntry) :
    (applyEntry s e).cells = (step s e).1.cells := by
  unfold applyEntry; cases hb : (step s e).2 <;> simp [hb]

/-- A successful `lookupInsert` leaves `syscalls` and `open_fds` alone. -/
theorem lookupInsert_syscalls_fds {s s2 : ParserState} {e : IOEntry}
    {parent_dir : File} {path : String}
    (h : lookupInsert s e parent_dir path = some s2) :
    s2.syscalls = s.syscalls ∧ s2.open_fds = s.open_fds := by
  unfold lookupInsert at h
  split at h
  · obtain rfl := Option.some.inj h
    exact ⟨rfl, rfl⟩
  · split at h
    · exact absurd h (by simp)
    · obtain rfl := Option.some.inj h
      constructor <;> (split <;> (split <;> simp))

/-- The handle being filtered out of the open set is no longer a member. -/
theorem not_mem_filter_ne (l : List Int) (h : Int) :
    h ∉ l.filter (fun x => x ≠ h) := by
  intro hmem
  rcases List.mem_filter.mp hmem with ⟨-, hdec⟩
  simp at hdec

/-- Claim C5: an `fsync` record (with parsable `arg0`) emits its syscall
exactly when its handle is in the open set: when open, one
`Fsync`/`Fdatasync` record (`data_only = (arg0 ≠ 0)`) is appended; when not
open, the record is silently dropped (success, no emission, no state
change).  A successful `release` removes its handle from the open set, so an
immediately following `fsync` on that handle is dropped. -/
theorem C5_fsync_only_when_open (s : ParserState) (e : IOEntry) (k : Int)
    (hop : e.op = "fsync") (harg : toIntPy e.arg0 = some k) :
    (e.handle_id ∈ s.open_fds →
        step s e
          = (emit s (Syscall.Fsync e.timestamp e.duration e.handle_id (k != 0)),
             true))
    ∧ (e.handle_id ∉ s.open_fds → step s e = (s, true))
    ∧ ∀ er : IOEntry, er.op = "release" → er.handle_id ∈ s.open_fds →
        (step s er).2 = true
        ∧ er.handle_id ∉ (step s er).1.open_fds := by
  refine ⟨?_, ?_, ?_⟩
  · intro hmem
    simp [step, hop, IOTraceParser.fsync, hmem, harg]
  · intro hmem
    simp [step, hop, IOTraceParser.fsync, hmem]
  · intro er hrel hmem
    have h2 : step s er
        = (emit (removeFd s er.handle_id)
            (Syscall.Release er.timestamp er.duration er.handle_id), true) := by
      simp [step, hrel, IOTraceParser.release, hmem]
    refine ⟨by rw [h2], ?_⟩
    rw [h2]
    simp [removeFd]

/-- Witness for `C5_fsync_only_when_open`: after `open(h=7)` and
`release(h=7)`, the following `fsync(h=7)` emits nothing; on the still-open
state it emits the `Fsync` record. -/
theorem C5_fsync_only_when_open_witness :
    (sReleased.open_fds.contains (7 : Int) = false
      ∧ step sReleased entryFsync7 = (sReleased, true))
    ∧ (sOpened.open_fds.contains (7 : Int) = true
      ∧ step sOpened entryFsync7
          = (emit sOpened (Syscall.Fsync 270000 1000 7 true), true)) :=
  ⟨⟨by decide,
    (C5_fsync_only_when_open sReleased entryFsync7 1 rfl rfl).2.1 (by decide)⟩,
   ⟨by decide,
    (C5_fsync_only_when_open sOpened entryFsync7 1 rfl rfl).1 (by decide)⟩⟩

/-- Claim C6: a `readdir` with `offset > 0` and `count = 0` is skipped
without touching anything; otherwise, when the target resolves to a non-root
directory with pair `(known, unknown)`, the pair becomes
`(known, max (offset + count − 2 − known) unknown)`; the mount root's cells
are never updated by `readdir`. -/
theorem C6_readdir_update (s : ParserState) (e : IOEntry)
    (offset entries_num : Int) (hop : e.op = "readdir")
    (h1 : toIntPy e.arg1 = some offset)
    (h2 : toIntPy e.arg2 = some entries_num) :
    (offset > 0 → entries_num = 0 → step s e = (s, true))
    ∧ (∀ f r k u, ¬(offset > 0 ∧ entries_num = 0) →
        envGet s e.uuid = some f → e.uuid ≠ s.mount_dir_uuid →
        sizeCell s f = some (r, k, u) →
        (step s e).2 = true
        ∧ (step s e).1.cells
            = s.cells.set r (k, max (offset + entries_num - 2 - k) u))
    ∧ ∀ f, ¬(offset > 0 ∧ entries_num = 0) → envGet s e.uuid = some f →
        e.uuid = s.mount_dir_uuid →
        (step s e).2 = true ∧ (step s e).1.cells = s.cells := by
  refine ⟨?_, ?_, ?_⟩
  · intro ho hc
    simp [step, hop, IOTraceParser.readdir, h1, h2, ho, hc]
  · intro f r k u hcond hf hmount hcell
    constructor <;>
      simp [step, hop, IOTraceParser.readdir, h1, h2, hcond, hf, hmount, hcell]
  · intro f hcond hf hmount
    rw [hmount] at hf
    constructor <;>
      simp [step, hop, IOTraceParser.readdir, h1, h2, hcond, hf, hmount]

/-- Witness for `C6_readdir_update`: scenario S5 — directory `"D"` with no
recorded children, `readdir offset=0 count=10` sets `unknown_children` to
`max (0 + 10 − 2 − 0) 0 = 8`, and the skip case leaves the state alone. -/
theorem C6_readdir_update_witness :
    ((step sWithD entryReadDirD).2 = true
      ∧ (step sWithD entryReadDirD).1.cells = sWithD.cells.set 1 (0, 8))
    ∧ step sWithD (IOEntry.mk 101000 "readdir" 3000 "D" 0 0 "10" "5" "0"
        "" "" "" "") = (sWithD, true) := by
  refine ⟨?_, ?_⟩
  · have h := (C6_readdir_update sWithD entryReadDirD 0 10 rfl rfl rfl).2.1
      (File.mk "d" "d" (FSize.dref 1)) 1 0 0 (by decide) (by decide)
      (by decide) (by decide)
    exact ⟨h.1, by simpa using h.2⟩
  · exact (C6_readdir_update sWithD
      (IOEntry.mk 101000 "readdir" 3000 "D" 0 0 "10" "5" "0" "" "" "" "")
      5 0 rfl rfl rfl).1 (by decide) rfl

/-- `parse13` accepts exactly when the four integer fields parse. -/
theorem parse13_ok_iff (fs : List String) :
    exceptOk (parse13 fs) = intFieldsOk fs := by
  unfold parse13 intFieldsOk
  split
  · rename_i ts op dur uuid hid ret a0 a1 a2 a3 a4 a5 a6
    cases toIntPy ts <;> cases toIntPy dur <;> cases toIntPy hid <;>
      cases toIntPy ret <;> simp [exceptOk]
  · rfl

/-- Claim C7: `from_str` splits on `','`; arity 12 is padded with one empty
final field and parses identically to the padded 13-field list; any other
arity than 12/13 yields the `ValueError` whose message names the expected
count (13) and the actual count; at arity 13 the line is accepted exactly
when the integer fields parse. -/
theorem C7_from_str_arity (line : String) (fs : List String) :
    IOEntry.from_str line = IOEntry.fromFields (line.splitOn ",")
    ∧ (fs.length = 12 → IOEntry.fromFields fs = IOEntry.fromFields (fs ++ [""]))
    ∧ (fs.length ≠ 12 → fs.length ≠ 13 →
        IOEntry.fromFields fs = .error (arityErrorMsg fs.length))
    ∧ (∃ suf, arityErrorMsg fs.length
        = "Expected " ++ toString IO_ENTRY_FIELDS_NUM ++ suf)
    ∧ (∃ pre, arityErrorMsg fs.length = pre ++ toString fs.length)
    ∧ (fs.length = 13 →
        exceptOk (IOEntry.fromFields fs) = intFieldsOk fs) := by
  refine ⟨rfl, ?_, ?_, ?_, ?_, ?_⟩
  · intro h12
    simp [IOEntry.fromFields, h12, IO_ENTRY_FIELDS_NUM]
  · intro h12 h13
    simp [IOEntry.fromFields, IO_ENTRY_FIELDS_NUM, h12, h13]
  · refine ⟨" number of arguments in " ++ "entry instead of specified "
      ++ padNum fs.length, ?_⟩
    simp [arityErrorMsg, String.append_assoc]
  · refine ⟨"Expected " ++ toString IO_ENTRY_FIELDS_NUM
      ++ " number of arguments in " ++ "entry instead of specified "
      ++ String.mk (List.replicate (5 - (toString fs.length).length) ' '), ?_⟩
    simp [arityErrorMsg, padNum, String.append_assoc]
  · intro h13
    simp [IOEntry.fromFields, IO_ENTRY_FIELDS_NUM, h13, parse13_ok_iff]

/-- Witness for `C7_from_str_arity`: a 2-field line is rejected with the
arity message; a concrete 12-field line parses exactly like its 13-field
padding, and the 13-field mount line is accepted. -/
theorem C7_from_str_arity_witness :
    IOEntry.fromFields ["a", "b"] = .error (arityErrorMsg 2)
    ∧ IOEntry.fromFields
        ["100", "mount", "0", "M", "0", "0", "", "", "", "", "", ""]
      = IOEntry.fromFields
        ["100", "mount", "0", "M", "0", "0", "", "", "", "", "", "", ""]
    ∧ exceptOk (IOEntry.fromFields
        ["100", "mount", "0", "M", "0", "0", "", "", "", "", "", "", ""])
      = intFieldsOk
        ["100", "mount", "0", "M", "0", "0", "", "", "", "", "", "", ""] :=
  ⟨(C7_from_str_arity "" ["a", "b"]).2.2.1 (by decide) (by decide),
   (C7_from_str_arity ""
     ["100", "mount", "0", "M", "0", "0", "", "", "", "", "", ""]).2.1 rfl,
   (C7_from_str_arity ""
     ["100", "mount", "0", "M", "0", "0", "", "", "", "", "", "", ""]).2.2.2.2.2
     rfl⟩

/-- `lookup` and `flush` records never append a syscall (success or not). -/
theorem step_lookup_flush_syscalls (s : ParserState) (e : IOEntry)
    (h : e.op = "lookup" ∨ e.op = "flush") :
    (step s e).1.syscalls = s.syscalls := by
  rcases h with h | h
  · simp only [step, h]
    unfold IOTraceParser.lookup
    split
    · rfl
    · split
      · rfl
      · rename_i parent_dir heq
        cases hins : lookupInsert s e parent_dir
            (joinPath s parent_dir.path e.arg0) with
        | none => simp [hins]
        | some s2 => simp [hins, (lookupInsert_syscalls_fds hins).1]
  · simp [step, h, IOTraceParser.flush]

/-- A trace of `lookup`/`flush` records leaves the emitted list alone. -/
theorem runEntries_no_emit (es : List IOEntry) :
    ∀ s : ParserState, (∀ e ∈ es, e.op = "lookup" ∨ e.op = "flush") →
    (runEntries s es).syscalls = s.syscalls := by
  induction es with
  | nil => intro s _; rfl
  | cons e es ih =>
    intro s hall
    have h1 : (applyEntry s e).syscalls = s.syscalls := by
      rw [applyEntry_syscalls]
      exact step_lookup_flush_syscalls s e (hall e (List.mem_cons_self e es))
    calc (runEntries s (e :: es)).syscalls
        = (runEntries (applyEntry s e) es).syscalls := rfl
      _ = (applyEntry s e).syscalls :=
          ih (applyEntry s e) (fun x hx => hall x (List.mem_cons_of_mem _ hx))
      _ = s.syscalls := h1

/-- Claim C10: a trace whose data records are only `lookup`s and `flush`es
emits no syscall, and then the finalisation of `parse` — which
unconditionally reads `self.syscalls[0]` after the sort — fails
(`finalize` is `none`, modelling the `IndexError`); `start_timestamp` is
only defined when at least one syscall was emitted. -/
theorem C10_no_syscalls_parse_raises (mUuid : String)
    (masks : List (String × String)) (entries : List IOEntry)
    (h : ∀ e ∈ entries, e.op = "lookup" ∨ e.op = "flush") :
    (runEntries (initState mUuid masks) entries).syscalls = []
    ∧ finalize (runEntries (initState mUuid masks) entries) = none := by
  have hempty : (runEntries (initState mUuid masks) entries).syscalls = [] :=
    runEntries_no_emit entries (initState mUuid masks) h
  refine ⟨hempty, ?_⟩
  unfold finalize
  rw [hempty]
  rfl

/-- Witness for `C10_no_syscalls_parse_raises` at a concrete
lookup-and-flush-only trace. -/
theorem C10_no_syscalls_parse_raises_witness :
    (runEntries (initState "M" []) [entryLookupA1, entryFlush3]).syscalls = []
    ∧ finalize (runEntries (initState "M" []) [entryLookupA1, entryFlush3])
        = none :=
  C10_no_syscalls_parse_raises "M" [] [entryLookupA1, entryFlush3] (by decide)

/-! ### Non-negativity of `known_children` (C8) -/

theorem KnownNonneg_of_set {cs : List (Int × Int)} {r : Nat} {k u : Int}
    (h : KnownNonneg cs) (hk : 0 ≤ k) : KnownNonneg (cs.set r (k, u)) := by
  intro c hc
  rcases List.mem_or_eq_of_mem_set hc with h' | rfl
  · exact h c h'
  · exact hk

theorem KnownNonneg_append {cs : List (Int × Int)} (h : KnownNonneg cs) :
    KnownNonneg (cs ++ [(0, 0)]) := by
  intro c hc
  rcases List.mem_append.mp hc with h' | h'
  · exact h c h'
  · simp only [List.mem_singleton] at h'
    subst h'
    exact le_refl 0

/-- A resolvable directory-size cell carries a non-negative `known` when the
invariant holds. -/
theorem sizeCell_known_nonneg {s : ParserState} {f : File} {r : Nat}
    {k u : Int} (hs : KnownNonneg s.cells) (h : sizeCell s f = some (r, k, u)) :
    0 ≤ k := by
  unfold sizeCell at h
  split at h
  · exact absurd h (by simp)
  · split at h
    · rename_i k' u' heq
      obtain ⟨hl, hx⟩ := List.getElem?_eq_some.mp heq
      have hmem : (k', u') ∈ s.cells := by
        rw [← hx]; exact List.getElem_mem hl
      have hk' : 0 ≤ k' := hs _ hmem
      have h2 := Option.some.inj h
      simp only [Prod.mk.injEq] at h2
      omega
    · exact absurd h (by simp)

/-- A successful `lookupInsert` preserves the non-negativity invariant (it
increments a `known` that was ≥ 0, and possibly allocates a `(0, 0)`). -/
theorem lookupInsert_known {s s2 : ParserState} {e : IOEntry}
    {parent_dir : File} {path : String}
    (h : lookupInsert s e parent_dir path = some s2)
    (hinv : KnownNonneg s.cells) : KnownNonneg s2.cells := by
  unfold lookupInsert at h
  split at h
  · obtain rfl := Option.some.inj h
    exact hinv
  · split at h
    · exact absurd h (by simp)
    · rename_i r k u heq
      have hk : 0 ≤ k := sizeCell_known_nonneg hinv heq
      have hbase : KnownNonneg (s.cells.set r (k + 1, u - 1)) :=
        KnownNonneg_of_set hinv (by omega)
      obtain rfl := Option.some.inj h
      split
      · split
        · simpa [cellSet] using hbase
        · simpa [cellSet, cellAlloc] using KnownNonneg_append hbase
      · split
        · simpa [cellSet] using hbase
        · simpa [cellSet, cellAlloc] using KnownNonneg_append hbase

/-- Claim C8 counterexample: the trace `mount; unlink(parent=M, target=M)`
is fully accepted (it emits `rmdir("")` and its duration counts), yet the
unguarded decrement drives the root directory's `known_children` to −1. -/
theorem C8_counterexample :
    (runEntries sM [entryUnlinkRoot]).cells = [(-1, 0)]
    ∧ (runEntries sM [entryUnlinkRoot]).syscalls
        = [Syscall.RmDir 300000 1000 ""]
    ∧ (runEntries sM [entryUnlinkRoot]).io_duration = 1000
    ∧ ¬ KnownNonneg (runEntries sM [entryUnlinkRoot]).cells := by
  refine ⟨by decide, by decide, by decide, ?_⟩
  intro hK
  have := hK (-1, 0) (by decide)
  omega

/-- Claim C8, amended: `known_children ≥ 0` is preserved by every record
*provided* each `unlink`/`rename` record finds its (source-)parent directory
with `known_children ≥ 1`; the decrements in `unlink` and `rename` are
unguarded, so without that proviso an accepted trace drives a directory's
`known_children` to −1 (see `C8_counterexample`).  All other opcodes only
increment `known_children`, allocate `(0, 0)` pairs, or leave `known`
untouched. -/
theorem C8_amended (s : ParserState) (e : IOEntry)
    (hinv : KnownNonneg s.cells)
    (hdec : (e.op = "unlink" ∨ e.op = "rename") → ∀ f r k u,
        envGet s e.uuid = some f → sizeCell s f = some (r, k, u) → 1 ≤ k) :
    KnownNonneg (applyEntry s e).cells := by
  rw [applyEntry_cells]
  unfold step
  split
  · -- lookup
    unfold IOTraceParser.lookup
    split
    · exact hinv
    · split
      · exact hinv
      · rename_i parent_dir heq
        cases hins : lookupInsert s e parent_dir
            (joinPath s parent_dir.path e.arg0) with
        | none => simpa [hins] using hinv
        | some s2 =>
          simp only [hins]
          simpa using lookupInsert_known hins hinv
  · -- getattr
    unfold IOTraceParser.getattr
    split
    · exact hinv
    · simpa using hinv
  · -- setattr
    unfold IOTraceParser.setattr
    split
    · split
      · exact hinv
      · simpa using hinv
    · exact hinv
  · -- readdir
    unfold IOTraceParser.readdir
    split
    · rename_i offset entries_num heq1 heq2
      split
      · exact hinv
      · split
        · exact hinv
        · rename_i directory heq3
          split
          · -- non-root directory: split on the size cell
            split
            · simpa using hinv
            · rename_i r k u heqc
              have hk : 0 ≤ k := sizeCell_known_nonneg hinv heqc
              simpa using KnownNonneg_of_set hinv hk
          · -- mount root: cells untouched
            simpa using hinv
    · exact hinv
  · -- open
    unfold IOTraceParser.openOp
    split
    · split
      · exact hinv
      · simpa using hinv
    · exact hinv
  · -- flush
    exact hinv
  · -- create
    unfold IOTraceParser.create
    split
    · split
      · exact hinv
      · rename_i parent_dir heq
        split
        · exact hinv
        · rename_i r k u heqc
          have hk : 0 ≤ k := sizeCell_known_nonneg hinv heqc
          simpa using KnownNonneg_of_set hinv (by omega)
    · exact hinv
  · -- mkdir
    unfold IOTraceParser.mkdir
    split
    · split
      · exact hinv
      · rename_i parent_dir heq
        split
        · exact hinv
        · rename_i r k u heqc
          have hk : 0 ≤ k := sizeCell_known_nonneg hinv heqc
          simpa using KnownNonneg_append (KnownNonneg_of_set hinv (by omega))
    · exact hinv
  · -- mknod
    unfold IOTraceParser.mknod
    split
    · split
      · exact hinv
      · rename_i parent_dir heq
        split
        · exact hinv
        · rename_i r k u heqc
          have hk : 0 ≤ k := sizeCell_known_nonneg hinv heqc
          simpa using KnownNonneg_of_set hinv (by omega)
    · exact hinv
  · -- unlink
    rename_i hop
    unfold IOTraceParser.unlink
    split
    · exact hinv
    · rename_i parent_dir heq
      split
      · exact hinv
      · rename_i r k u heqc
        have hk : 1 ≤ k := hdec (Or.inl hop) parent_dir r k u heq heqc
        have hinv1 : KnownNonneg (s.cells.set r (k - 1, u)) :=
          KnownNonneg_of_set hinv (by omega)
        cases hfile : envGet (cellSet s r (k - 1, u)) e.arg1 with
        | none => simpa [hfile] using hinv1
        | some file =>
          by_cases ht : file.type = "d" <;> simpa [hfile, ht] using hinv1
  · -- rename
    rename_i hop
    unfold IOTraceParser.rename
    split
    · exact hinv
    · rename_i src_parent_dir heq
      split
      · exact hinv
      · rename_i r k u heqc
        have hk : 1 ≤ k := hdec (Or.inr hop) src_parent_dir r k u heq heqc
        have hinv1 : KnownNonneg (s.cells.set r (k - 1, u)) :=
          KnownNonneg_of_set hinv (by omega)
        cases hsrc : envGet (cellSet s r (k - 1, u)) e.arg1 with
        | none => simpa [hsrc] using hinv1
        | some src_file =>
          cases hdst : envGet (cellSet s r (k - 1, u)) e.arg2 with
          | none => simpa [hsrc, hdst] using hinv1
          | some dst_parent_dir =>
            cases hcell2 : sizeCell (cellSet s r (k - 1, u))
                dst_parent_dir with
            | none => simpa [hsrc, hdst, hcell2] using hinv1
            | some t =>
              obtain ⟨r2, k2, u2⟩ := t
              have hk2 : 0 ≤ k2 :=
                sizeCell_known_nonneg (s := cellSet s r (k - 1, u))
                  (by simpa using hinv1) hcell2
              have hset : KnownNonneg
                  ((s.cells.set r (k - 1, u)).set r2 (k2 + 1, u2)) :=
                KnownNonneg_of_set hinv1 (by omega)
              simpa [hsrc, hdst, hcell2] using hset
  · -- getxattr
    unfold IOTraceParser.getxattr
    split
    · exact hinv
    · simpa using hinv
  · -- setxattr
    unfold IOTraceParser.setxattr
    repeat' split
    all_goals first
      | exact hinv
      | simpa using hinv
  · -- removexattr
    unfold IOTraceParser.removexattr
    split
    · exact hinv
    · simpa using hinv
  · -- listxattr
    unfold IOTraceParser.listxattr
    split
    · exact hinv
    · simpa using hinv
  · -- read
    unfold IOTraceParser.read
    split
    · simpa using hinv
    · exact hinv
  · -- write
    unfold IOTraceParser.write
    split
    · simpa using hinv
    · exact hinv
  · -- fsync
    unfold IOTraceParser.fsync
    split
    · split
      · exact hinv
      · simpa using hinv
    · exact hinv
  · -- release
    unfold IOTraceParser.release
    split
    · simpa using hinv
    · exact hinv
  · -- unknown opcode
    exact hinv

/-- Witness for `C8_amended`: unlinking child `"D"` whose parent (the root)
has `known_children = 1` keeps every `known_children` non-negative. -/
theorem C8_amended_witness :
    KnownNonneg (applyEntry sWithD entryUnlinkD).cells := by
  apply C8_amended
  · exact (by decide : ∀ c ∈ sWithD.cells, 0 ≤ c.1)
  · intro _ f r k u hf hc
    have hf' : envGet sWithD entryUnlinkD.uuid
        = some (File.mk "" "d" (FSize.dref 0)) := by decide
    rw [hf'] at hf
    obtain rfl := (Option.some.inj hf).symm
    have hc' : sizeCell sWithD (File.mk "" "d" (FSize.dref 0))
        = some (0, 1, -1) := by decide
    rw [hc'] at hc
    have := Option.some.inj hc
    simp only [Prod.mk.injEq] at this
    omega

/-! ### Close bracketing (C9) -/

theorem openPending_append {h : Int} {l : List Syscall} {x : Syscall}
    (hl : openPending h l) (hx : isReleaseOf h x = false) :
    openPending h (l ++ [x]) := by
  obtain ⟨p1, y, p2, rfl, hy, hp2⟩ := hl
  refine ⟨p1, y, p2 ++ [x], by simp, hy, ?_⟩
  intro z hz
  rcases List.mem_append.mp hz with hz | hz
  · exact hp2 z hz
  · simp only [List.mem_singleton] at hz
    subst hz
    exact hx

theorem openPending_new {h : Int} {l : List Syscall} {y : Syscall}
    (hy : isOpenerOf h y = true) : openPending h (l ++ [y]) :=
  ⟨l, y, [], by simp, hy, by simp⟩

theorem goodCloses_append {l : List Syscall} {x : Syscall}
    (hl : goodCloses l) (hx : ∀ h, isReleaseOf h x = true → openPending h l) :
    goodCloses (l ++ [x]) := by
  intro pre y post h heq hrel
  rcases List.append_eq_append_iff.mp heq with ⟨w, hw1, hw2⟩ | ⟨w, hw1, hw2⟩
  · cases w with
    | nil =>
      simp only [List.nil_append] at hw2
      obtain ⟨rfl, rfl⟩ : x = y ∧ post = ([] : List Syscall) := by
        have := List.cons.inj hw2.symm
        exact ⟨this.1.symm, this.2⟩
      simp only [List.append_nil] at hw1
      subst hw1
      exact hx h hrel
    | cons w0 w' =>
      exfalso
      have := congrArg List.length hw2
      simp at this
  · cases w with
    | nil =>
      simp only [List.append_nil] at hw1
      simp only [List.nil_append] at hw2
      obtain ⟨rfl, rfl⟩ : y = x ∧ post = ([] : List Syscall) := by
        have := List.cons.inj hw2
        exact ⟨this.1, this.2⟩
      subst hw1
      exact hx h hrel
    | cons w0 w' =>
      obtain ⟨rfl, rfl⟩ : y = w0 ∧ post = w' ++ [x] := by
        have := List.cons.inj hw2
        exact ⟨this.1, this.2⟩
      exact hl pre y w' h hw1 hrel

/-- Appending a non-`Release` record to a state whose `syscalls`/`open_fds`
match `s`'s keeps the invariant components. -/
theorem FdsInv_components_emit {s s2 : ParserState} {sc : Syscall}
    (hs : FdsInv s) (hsys : s2.syscalls = s.syscalls)
    (hfds : s2.open_fds = s.open_fds)
    (hsc : ∀ h, isReleaseOf h sc = false) :
    goodCloses (emit s2 sc).syscalls
    ∧ ∀ h ∈ (emit s2 sc).open_fds, openPending h (emit s2 sc).syscalls := by
  rw [emit_syscalls, emit_open_fds, hsys, hfds]
  refine ⟨goodCloses_append hs.1 (fun h hrel => absurd hrel (by simp [hsc h])),
    fun h hm => openPending_append (hs.2 h hm) (hsc h)⟩

/-- Membership after a set-add comes from the set or is the new handle. -/
theorem addFd_mem {s : ParserState} {hid h : Int}
    (hm : h ∈ (addFd s hid).open_fds) : h ∈ s.open_fds ∨ h = hid := by
  unfold addFd at hm
  split at hm
  · exact Or.inl hm
  · rcases List.mem_append.mp hm with h' | h'
    · exact Or.inl h'
    · simp only [List.mem_singleton] at h'
      exact Or.inr h'

/-- One record preserves the open/close bracketing invariant. -/
theorem FdsInv_step (s : ParserState) (e : IOEntry) (hs : FdsInv s) :
    FdsInv (applyEntry s e) := by
  have smain : goodCloses (step s e).1.syscalls
      ∧ ∀ h ∈ (step s e).1.open_fds, openPending h (step s e).1.syscalls := by
    unfold step
    split
    · -- lookup: never emits, never touches the fds
      unfold IOTraceParser.lookup
      split
      · exact hs
      · split
        · exact hs
        · rename_i parent_dir heq
          cases hins : lookupInsert s e parent_dir
              (joinPath s parent_dir.path e.arg0) with
          | none => simp only [hins]; exact hs
          | some s2 =>
            obtain ⟨hsys, hfds⟩ := lookupInsert_syscalls_fds hins
            simp only [hins]
            constructor
            · simpa [hsys] using hs.1
            · intro h hm
              simp only [pendingEnqueue_open_fds, takePendingLookup_open_fds,
                hfds] at hm
              simpa [hsys] using hs.2 h hm
    · -- getattr
      unfold IOTraceParser.getattr
      split
      · exact hs
      · exact FdsInv_components_emit hs (by simp) (by simp)
          (fun h => by simp [isReleaseOf])
    · -- setattr
      unfold IOTraceParser.setattr
      split
      · split
        · exact hs
        · exact FdsInv_components_emit hs (by simp) (by simp)
            (fun h => by simp [isReleaseOf])
      · exact hs
    · -- readdir
      unfold IOTraceParser.readdir
      split
      · rename_i offset entries_num heq1 heq2
        split
        · exact hs
        · split
          · exact hs
          · rename_i directory heq3
            split
            · split
              · exact hs
              · rename_i r k u heqc
                exact FdsInv_components_emit hs (by simp) (by simp)
                  (fun h => by simp [isReleaseOf])
            · exact FdsInv_components_emit hs (by simp) (by simp)
                (fun h => by simp [isReleaseOf])
      · exact hs
    · -- open
      unfold IOTraceParser.openOp
      split
      · split
        · exact hs
        · rename_i f heq
          constructor
          · simp only [emit_syscalls, addFd_syscalls, takePendingLookup_syscalls]
            exact goodCloses_append hs.1
              (fun h hrel => absurd hrel (by simp [isReleaseOf]))
          · intro h hm
            simp only [emit_open_fds] at hm
            simp only [emit_syscalls, addFd_syscalls, takePendingLookup_syscalls]
            rcases addFd_mem hm with hm' | rfl
            · rw [takePendingLookup_open_fds] at hm'
              exact openPending_append (hs.2 h hm') (by simp [isReleaseOf])
            · exact openPending_new (by simp [isOpenerOf])
      · exact hs
    · -- flush
      exact hs
    · -- create
      unfold IOTraceParser.create
      split
      · split
        · exact hs
        · rename_i parent_dir heq
          split
          · exact hs
          · rename_i r k u heqc
            constructor
            · simp only [emit_syscalls, addFd_syscalls, takePendingLookup_syscalls,
                envSet_syscalls, cellSet_syscalls]
              exact goodCloses_append hs.1
                (fun h hrel => absurd hrel (by simp [isReleaseOf]))
            · intro h hm
              simp only [emit_open_fds] at hm
              simp only [emit_syscalls, addFd_syscalls, takePendingLookup_syscalls,
                envSet_syscalls, cellSet_syscalls]
              rcases addFd_mem hm with hm' | rfl
              · simp only [takePendingLookup_open_fds, envSet_open_fds,
                  cellSet_open_fds] at hm'
                exact openPending_append (hs.2 h hm') (by simp [isReleaseOf])
              · exact openPending_new (by simp [isOpenerOf])
      · exact hs
    · -- mkdir
      unfold IOTraceParser.mkdir
      split
      · split
        · exact hs
        · rename_i parent_dir heq
          split
          · exact hs
          · rename_i r k u heqc
            exact FdsInv_components_emit hs (by simp) (by simp)
              (fun h => by simp [isReleaseOf])
      · exact hs
    · -- mknod
      unfold IOTraceParser.mknod
      split
      · split
        · exact hs
        · rename_i parent_dir heq
          split
          · exact hs
          · rename_i r k u heqc
            exact FdsInv_components_emit hs (by simp) (by simp)
              (fun h => by simp [isReleaseOf])
      · exact hs
    · -- unlink
      unfold IOTraceParser.unlink
      split
      · exact hs
      · rename_i parent_dir heq
        split
        · exact hs
        · rename_i r k u heqc
          cases hfile : envGet (cellSet s r (k - 1, u)) e.arg1 with
          | none => simp only [hfile]; exact hs
          | some file =>
            simp only [hfile]
            by_cases ht : file.type = "d"
            · rw [if_pos ht]
              exact FdsInv_components_emit hs (by simp) (by simp)
                (fun h => by simp [isReleaseOf])
            · rw [if_neg ht]
              exact FdsInv_components_emit hs (by simp) (by simp)
                (fun h => by simp [isReleaseOf])
    · -- rename
      unfold IOTraceParser.rename
      split
      · exact hs
      · rename_i src_parent_dir heq
        split
        · exact hs
        · rename_i r k u heqc
          cases hsrc : envGet (cellSet s r (k - 1, u)) e.arg1 with
          | none => simp only [hsrc]; exact hs
          | some src_file =>
            simp only [hsrc]
            cases hdst : envGet (cellSet s r (k - 1, u)) e.arg2 with
            | none => simp only [hdst]; exact hs
            | some dst_parent_dir =>
              simp only [hdst]
              cases hcell2 : sizeCell (cellSet s r (k - 1, u))
                  dst_parent_dir with
              | none => simp only [hcell2]; exact hs
              | some t =>
                obtain ⟨r2, k2, u2⟩ := t
                simp only [hcell2]
                exact FdsInv_components_emit hs (by simp) (by simp)
                  (fun h => by simp [isReleaseOf])
    · -- getxattr
      unfold IOTraceParser.getxattr
      split
      · exact hs
      · exact FdsInv_components_emit hs (by simp) (by simp)
          (fun h => by simp [isReleaseOf])
    · -- setxattr
      unfold IOTraceParser.setxattr
      repeat' split
      all_goals first
        | exact hs
        | exact FdsInv_components_emit hs (by simp) (by simp)
            (fun h => by simp [isReleaseOf])
    · -- removexattr
      unfold IOTraceParser.removexattr
      split
      · exact hs
      · exact FdsInv_components_emit hs (by simp) (by simp)
          (fun h => by simp [isReleaseOf])
    · -- listxattr
      unfold IOTraceParser.listxattr
      split
      · exact hs
      · exact FdsInv_components_emit hs (by simp) (by simp)
          (fun h => by simp [isReleaseOf])
    · -- read
      unfold IOTraceParser.read
      split
      · exact FdsInv_components_emit hs (by simp) (by simp)
          (fun h => by simp [isReleaseOf])
      · exact hs
    · -- write
      unfold IOTraceParser.write
      split
      · exact FdsInv_components_emit hs (by simp) (by simp)
          (fun h => by simp [isReleaseOf])
      · exact hs
    · -- fsync
      unfold IOTraceParser.fsync
      split
      · split
        · exact hs
        · exact FdsInv_components_emit hs (by simp) (by simp)
            (fun h => by simp [isReleaseOf])
      · exact hs
    · -- release
      unfold IOTraceParser.release
      split
      · rename_i hmem
        have hmem' : e.handle_id ∈ s.open_fds := by simpa using hmem
        constructor
        · simp only [emit_syscalls, removeFd_syscalls]
          refine goodCloses_append hs.1 (fun h hrel => ?_)
          have hh : e.handle_id = h := by
            simpa [isReleaseOf] using hrel
          subst hh
          exact hs.2 _ hmem'
        · intro h hm
          simp only [emit_open_fds, removeFd] at hm
          obtain ⟨hmm, hne⟩ := List.mem_filter.mp hm
          simp only [decide_eq_true_eq] at hne
          simp only [emit_syscalls, removeFd_syscalls]
          refine openPending_append (hs.2 h hmm) ?_
          simp only [isReleaseOf, beq_eq_false_iff_ne, ne_eq]
          exact fun hc => hne (hc.symm)
      · exact hs
    · -- unknown opcode
      exact hs
  constructor
  · rw [applyEntry_syscalls]
    exact smain.1
  · rw [applyEntry_syscalls]
    intro h hm
    rw [applyEntry_open_fds] at hm
    exact smain.2 h hm

/-- Claim C9: in the syscall stream emitted by any accepted trace, every
`close(h)` (from a `release` record) has a prior `open(_, _, h)` or
`create(…, h)` with no other `close(h)` between them; and a `release`
record whose handle is not currently open is rejected and emits nothing. -/
theorem C9_close_bracketing (mUuid : String) (masks : List (String × String))
    (entries : List IOEntry) :
    goodCloses (runEntries (initState mUuid masks) entries).syscalls
    ∧ ∀ (s : ParserState) (e : IOEntry), e.op = "release" →
        e.handle_id ∉ s.open_fds → step s e = (s, false) := by
  constructor
  · have hrun : ∀ (es : List IOEntry) (s : ParserState),
        FdsInv s → FdsInv (runEntries s es) := by
      intro es
      induction es with
      | nil => exact fun s hs => hs
      | cons e es ih => exact fun s hs => ih (applyEntry s e) (FdsInv_step s e hs)
    have hinit : FdsInv (initState mUuid masks) := by
      constructor
      · intro pre x post h heq _
        have heq' : ([] : List Syscall) = pre ++ x :: post := heq
        exact absurd heq'.symm (by simp)
      · intro h hm
        simp [initState] at hm
    exact (hrun entries (initState mUuid masks) hinit).1
  · intro s e hop hmem
    simp [step, hop, IOTraceParser.release, hmem]

/-- Witness for `C9_close_bracketing`: the open/release trace on handle 7,
and a release on the freshly-mounted state (no handle open) is rejected. -/
theorem C9_close_bracketing_witness :
    goodCloses (runEntries (initState "M" [])
      [entryOpen7, entryRelease7]).syscalls
    ∧ step sM entryRelease7 = (sM, false) :=
  ⟨(C9_close_bracketing "M" [] [entryOpen7, entryRelease7]).1,
   (C9_close_bracketing "M" [] []).2 sM entryRelease7 rfl (by decide)⟩

end IOReplay

